import Mathlib

/-!
Formal model of the keepalived debug memory tracker (lib/memory.c).

The tracker intercepts allocate / free / reallocate calls, records
per-allocation metadata in a fixed-capacity table (alloc_list), writes an
integer canary just past each user-visible buffer, keeps a bounded ring of
recent frees (free_list) for forensics, and produces a final report whose
verdict derives from the recorded state.

Modelling conventions:
- machine memory is a byte map Nat -> Nat; an unsigned long is read or
  written as eight consecutive little-endian bytes, with values taken
  mod 2 ^ 64;
- a C pointer is its address as a Nat, with 0 standing for NULL;
- the underlying allocator is an oracle: each operation receives as extra
  arguments the address malloc or realloc would return; returning 0 from
  malloc is the fatal out-of-memory path;
- fatal paths (allocator exhaustion, table capacity exceeded: exit or
  assert in the C code) are Option.none;
- calls of the underlying free are recorded in a trace field freedPtrs;
  the forensic lines printed on an unmatched free or realloc are recorded
  in a trace field forensicReports (Option.none in that list means the
  scan found nothing and no line was printed).
-/

/-- Width modulus of the C type unsigned long on the 64-bit build. -/
def WORD : Nat := 2 ^ 64

/-- CHECK_VAL from memory.c for the 64-bit build. -/
def CHECK_VAL : Nat := 0xa5a55a5aa5a55a5a

/-- FREE_LIST_SIZE from memory.c. -/
def FREE_LIST_SIZE : Nat := 256

/-- Number of bytes of an unsigned long trailer. -/
def TRAILER : Nat := 8

/-- The enum slot_type of memory.c. -/
inductive SlotType where
  | FREE_SLOT
  | OVERRUN
  | FREE_NULL
  | REALLOC_NULL
  | FREE_NOT_ALLOC
  | REALLOC_NOT_ALLOC
  | LAST_FREE
  | ALLOCATED
deriving DecidableEq, Repr

/-- The MEMCHECK record of memory.c. -/
structure MEMCHECK where
  type : SlotType
  line : Nat
  func : String
  file : String
  ptr : Nat
  size : Nat
deriving DecidableEq, Repr

/-- A zeroed static MEMCHECK entry. -/
def emptySlot : MEMCHECK :=
  { type := .FREE_SLOT, line := 0, func := "", file := "", ptr := 0, size := 0 }

/-- Content of the forensic line printed when the free-list scan matches:
the row id stored in the size field of the ring entry, and the recorded
call site. -/
structure ForensicReport where
  rowId : Nat
  file : String
  line : Nat
  func : String
deriving DecidableEq, Repr

/- Byte-level heap model. -/

/-- Write a single byte. -/
def writeByte (h : Nat → Nat) (a v : Nat) : Nat → Nat :=
  fun x => if x = a then v % 256 else h x

/-- Zero a byte range, as memset(mem, 0, len) does. -/
def zeroRange (h : Nat → Nat) (a len : Nat) : Nat → Nat :=
  fun x => if a ≤ x ∧ x < a + len then 0 else h x

/-- Store an unsigned long at address a, little endian. -/
def writeWord (h : Nat → Nat) (a v : Nat) : Nat → Nat :=
  fun x => if a ≤ x ∧ x < a + TRAILER then v / 256 ^ (x - a) % 256 else h x

/-- Read an unsigned long at address a, little endian. -/
def readWord (h : Nat → Nat) (a : Nat) : Nat :=
  h a + 256 * (h (a + 1) + 256 * (h (a + 2) + 256 * (h (a + 3) +
    256 * (h (a + 4) + 256 * (h (a + 5) + 256 * (h (a + 6) + 256 * h (a + 7)))))))

/-- Effect of the underlying realloc moving a block: the first
min oldLen newLen bytes of the new block hold the old contents. -/
def reallocHeap (h : Nat → Nat) (oldp newp oldLen newLen : Nat) : Nat → Nat :=
  fun x => if newp ≤ x ∧ x < newp + min oldLen newLen then h (oldp + (x - newp)) else h x

/-- size_t addition. -/
def add64 (a b : Nat) : Nat := (a + b) % WORD

/-- size_t subtraction. -/
def sub64 (a b : Nat) : Nat := (a % WORD + (WORD - b % WORD)) % WORD

/-- Process-wide state of the tracker: the static variables of memory.c,
the heap, and the two observable traces of the modelling. -/
structure State where
  /-- MAX_ALLOC_LIST, fixed at build time via configure. -/
  cap : Nat
  /-- alloc_list together with number_alloc_list as its length. -/
  alloc_list : List MEMCHECK
  /-- free_list, the forensics ring. -/
  free_list : List MEMCHECK
  /-- f, the ring write index. -/
  f : Nat
  /-- n, the live allocation count. -/
  n : Int
  num_mallocs : Nat
  num_reallocs : Nat
  mem_allocated : Nat
  max_mem_allocated : Nat
  /-- MEM_ERR_DETECT_BIT of the debug word. -/
  memErrDetect : Bool
  /-- byte memory -/
  heap : Nat → Nat
  /-- trace: addresses passed to the underlying free, most recent first -/
  freedPtrs : List Nat
  /-- trace: forensic scan outcomes, most recent first -/
  forensicReports : List (Option ForensicReport)

/-- Tracker state at startup: zeroed statics, given capacity and initial
memory contents. -/
def initState (cap : Nat) (h0 : Nat → Nat) : State :=
  { cap := cap
    alloc_list := []
    free_list := List.replicate FREE_LIST_SIZE emptySlot
    f := 0
    n := 0
    num_mallocs := 0
    num_reallocs := 0
    mem_allocated := 0
    max_mem_allocated := 0
    memErrDetect := false
    heap := h0
    freedPtrs := []
    forensicReports := [] }

/- Allocation table manager. -/

/-- Scan loop of get_free_alloc_entry: index of the first FREE_SLOT entry
whose index differs from avoid, or the list length when none exists. -/
def find_free_aux (avoid : Int) (base : Nat) : List MEMCHECK → Nat
  | [] => 0
  | e :: r =>
    if e.type = .FREE_SLOT ∧ (base : Int) ≠ avoid then 0
    else find_free_aux avoid (base + 1) r + 1

/-- get_free_alloc_entry of memory.c: pick the first free slot, extending
the table when none is free; reaching MAX_ALLOC_LIST is fatal (assert). -/
def get_free_alloc_entry (st : State) (avoid : Int) : Option (Nat × State) :=
  let i := find_free_aux avoid 0 st.alloc_list
  let l' := if i = st.alloc_list.length then st.alloc_list ++ [emptySlot] else st.alloc_list
  if st.cap ≤ l'.length then none
  else some (i, { st with alloc_list := l' })

/-- xalloc of memory.c: underlying malloc plus the accounting of
mem_allocated and max_mem_allocated; a NULL return exits the process.
The oracle argument p is the address the underlying malloc returns. -/
def xalloc (st : State) (size : Nat) (p : Nat) : Option (Nat × State) :=
  if p = 0 then none
  else
    let ma := add64 st.mem_allocated (sub64 size TRAILER)
    some (p, { st with
      mem_allocated := ma
      max_mem_allocated := if st.max_mem_allocated < ma then ma else st.max_mem_allocated })

/-- zalloc of memory.c: xalloc then memset 0. -/
def zalloc (st : State) (size : Nat) (p : Nat) : Option (Nat × State) :=
  match xalloc st size p with
  | none => none
  | some (buf, st1) => some (buf, { st1 with heap := zeroRange st1.heap buf size })

/-- keepalived_malloc of memory.c. -/
def keepalived_malloc (st : State) (size : Nat) (file func : String) (line : Nat)
    (p : Nat) : Option (Nat × State) :=
  match zalloc st (size + TRAILER) p with
  | none => none
  | some (buf, st1) =>
    let st2 := { st1 with heap := writeWord st1.heap (buf + size) (add64 size CHECK_VAL) }
    match get_free_alloc_entry st2 (-1) with
    | none => none
    | some (i, st3) =>
      some (buf, { st3 with
        alloc_list := st3.alloc_list.set i
          { type := .ALLOCATED, line := line, func := func, file := file, ptr := buf, size := size }
        n := st3.n + 1
        num_mallocs := st3.num_mallocs + 1 })

/- Pointer lookup and the forensic ring. -/

/-- Lookup loop of keepalived_free_realloc_common: index of the first
entry with state ALLOCATED and the given pointer identity, or the list
length when none matches. -/
def findAllocAux (buffer : Nat) : List MEMCHECK → Nat
  | [] => 0
  | e :: r =>
    if e.type = .ALLOCATED ∧ e.ptr = buffer then 0
    else findAllocAux buffer r + 1

/-- Index of the matching ALLOCATED slot in the table, or the table
length when the pointer is not found. -/
def findAllocIdx (l : List MEMCHECK) (buffer : Nat) : Nat := findAllocAux buffer l

/-- Index just before j in the ring, wrapping below zero. -/
def prevIdx (j : Nat) : Nat := (if j = 0 then FREE_LIST_SIZE else j) - 1

/-- The do-while scan of the free list: starting at index j, step backward
through at most fuel entries, stopping at the first entry that holds the
pointer as a LAST_FREE record. -/
def scanAux (fl : List MEMCHECK) (buffer : Nat) : Nat → Nat → Option Nat
  | _, 0 => none
  | j, fuel + 1 =>
    if (fl.getD j emptySlot).ptr = buffer ∧ (fl.getD j emptySlot).type = .LAST_FREE then some j
    else scanAux fl buffer (prevIdx j) fuel

/-- Forensic lookup on an unmatched free or realloc: scan the whole ring
backward from the most recently written entry. -/
def forensicScan (fl : List MEMCHECK) (f buffer : Nat) : Option Nat :=
  scanAux fl buffer (prevIdx f) FREE_LIST_SIZE

/-- Content of the forensic line printed for ring index j. -/
def reportOf (fl : List MEMCHECK) (j : Nat) : ForensicReport :=
  let e := fl.getD j emptySlot
  { rowId := e.size, file := e.file, line := e.line, func := e.func }

/-- Outcome of the forensic lookup: the printed line when the scan
matches, none (nothing printed) otherwise. -/
def forensicResult (fl : List MEMCHECK) (f buffer : Nat) : Option ForensicReport :=
  (forensicScan fl f buffer).map (reportOf fl)

/- keepalived_free_realloc_common. -/

/-- Record one bad-call event: overwrite the chosen slot and raise
MEM_ERR_DETECT_BIT. -/
def recordBadCall (st : State) (i : Nat) (t : SlotType) (ptr sz : Nat)
    (file func : String) (line : Nat) : State :=
  { st with
    alloc_list := st.alloc_list.set i
      { type := t, line := line, func := func, file := file, ptr := ptr, size := sz }
    memErrDetect := true }

/-- keepalived_free_realloc_common of memory.c. size = 0 is the free
path, size > 0 the realloc path. po is the oracle address for the malloc
delegated to on realloc NULL; qo is the oracle address the underlying
realloc returns. Returns the C return value (0 for NULL) and the new
state, or none on a fatal path. -/
def keepalived_free_realloc_common (st : State) (buffer size : Nat)
    (file func : String) (line : Nat) (po qo : Nat) : Option (Nat × State) :=
  if buffer = 0 then
    match get_free_alloc_entry st (-1) with
    | none => none
    | some (i, st1) =>
      let st2 := recordBadCall st1 i (if size = 0 then .FREE_NULL else .REALLOC_NULL)
        0 0 file func line
      if size = 0 then some (0, st2)
      else
        match keepalived_malloc st2 size file func line po with
        | none => none
        | some (buf, st3) => some (buf, st3)
  else
    let i := findAllocIdx st.alloc_list buffer
    if i = st.alloc_list.length then
      -- pointer not found
      match get_free_alloc_entry st (-1) with
      | none => none
      | some (i2, st1) =>
        let t : SlotType := if size = 0 then .FREE_NOT_ALLOC else .REALLOC_NOT_ALLOC
        let st2 := recordBadCall st1 i2 t buffer size file func line
        some (0, { st2 with
          forensicReports := forensicResult st2.free_list st2.f buffer :: st2.forensicReports })
    else
      let slot := st.alloc_list.getD i emptySlot
      let check := add64 slot.size CHECK_VAL
      let stepA : Option State :=
        if readWord st.heap (buffer + slot.size) ≠ check then
          if size = 0 then
            some { st with
              alloc_list := st.alloc_list.set i
                { type := .OVERRUN, line := slot.line, func := slot.func,
                  file := slot.file, ptr := slot.ptr, size := slot.size }
              memErrDetect := true }
          else
            match get_free_alloc_entry st (-1) with
            | none => none
            | some (j, st1) =>
              some { st1 with
                alloc_list := st1.alloc_list.set j
                  { type := .OVERRUN, line := slot.line, func := slot.func,
                    file := slot.file, ptr := slot.ptr, size := slot.size }
                memErrDetect := true }
        else if size = 0 then
          some { st with
            alloc_list := st.alloc_list.set i
              { type := .FREE_SLOT, line := slot.line, func := slot.func,
                file := slot.file, ptr := slot.ptr, size := slot.size } }
        else some st
      match stepA with
      | none => none
      | some stA =>
        let stB := { stA with mem_allocated := sub64 stA.mem_allocated slot.size }
        if size = 0 then
          -- underlying free, log, push the ring entry, advance f, decrement n
          some (0, { stB with
            freedPtrs := buffer :: stB.freedPtrs
            free_list := stB.free_list.set stB.f
              { type := .LAST_FREE, line := line, func := func, file := file,
                ptr := buffer, size := i }
            f := (stB.f + 1) % FREE_LIST_SIZE
            n := stB.n - 1 })
        else
          -- underlying realloc, accounting, rewrite the canary, update the slot
          let newbuf := qo
          let ma := add64 stB.mem_allocated size
          let h1 := reallocHeap stB.heap buffer newbuf (slot.size + TRAILER) (size + TRAILER)
          let h2 := writeWord h1 (newbuf + size) (add64 size CHECK_VAL)
          let cur := stB.alloc_list.getD i emptySlot
          some (newbuf, { stB with
            mem_allocated := ma
            max_mem_allocated :=
              if stB.max_mem_allocated < ma then ma else stB.max_mem_allocated
            heap := h2
            alloc_list := stB.alloc_list.set i
              { type := cur.type, line := line, func := func, file := file,
                ptr := newbuf, size := size }
            num_reallocs := stB.num_reallocs + 1 })

/-- keepalived_free of memory.c. -/
def keepalived_free (st : State) (buffer : Nat) (file func : String) (line : Nat)
    (po qo : Nat) : Option State :=
  (keepalived_free_realloc_common st buffer 0 file func line po qo).map Prod.snd

/-- keepalived_realloc of memory.c: size 0 is converted to a free
returning NULL. -/
def keepalived_realloc (st : State) (buffer size : Nat) (file func : String)
    (line : Nat) (po qo : Nat) : Option (Nat × State) :=
  if size = 0 then
    (keepalived_free st buffer file func line po qo).map (fun s => (0, s))
  else keepalived_free_realloc_common st buffer size file func line po qo

/- The dump loop of keepalived_alloc_log. -/

/-- Does the dump loop count this slot as a bad pointer event. -/
def isBadPtr (t : SlotType) : Bool :=
  match t with
  | .REALLOC_NULL | .FREE_NOT_ALLOC | .REALLOC_NOT_ALLOC | .FREE_NULL => true
  | _ => false

/-- Slot states the tracker records as misuse events and never reuses. -/
def isErrState (t : SlotType) : Bool :=
  match t with
  | .OVERRUN | .FREE_NULL | .REALLOC_NULL | .FREE_NOT_ALLOC | .REALLOC_NOT_ALLOC => true
  | _ => false

/-- One iteration of the dump loop, accumulating (overrun, badptr, sum). -/
def dumpStep (acc : Nat × Nat × Nat) (e : MEMCHECK) : Nat × Nat × Nat :=
  match e.type with
  | .REALLOC_NULL | .FREE_NOT_ALLOC | .REALLOC_NOT_ALLOC | .FREE_NULL =>
    (acc.1, acc.2.1 + 1, acc.2.2)
  | .OVERRUN => (acc.1 + 1, acc.2.1, acc.2.2)
  | .ALLOCATED => (acc.1, acc.2.1, add64 acc.2.2 e.size)
  | _ => acc

/-- The counters (overrun, badptr, sum) the dump loop computes. -/
def dumpCounts (l : List MEMCHECK) : Nat × Nat × Nat :=
  l.foldl dumpStep (0, 0, 0)

/-- Verdict of the final dump: true exactly when the closing line is the
no-problems one, per the test sum or n or badptr or overrun. -/
def finalVerdictOk (st : State) : Bool :=
  let c := dumpCounts st.alloc_list
  c.2.2 = 0 ∧ st.n = 0 ∧ c.2.1 = 0 ∧ c.1 = 0

/-- Number of slots currently in state ALLOCATED. -/
def countAllocated (l : List MEMCHECK) : Nat :=
  l.countP (fun e => e.type = .ALLOCATED)

/-- Number of bad pointer slots. -/
def badptrCount (l : List MEMCHECK) : Nat := l.countP (fun e => isBadPtr e.type)

/-- Number of OVERRUN slots. -/
def overrunCount (l : List MEMCHECK) : Nat := l.countP (fun e => e.type = .OVERRUN)

/- Steps and reachability. -/

/-- One observable step of the embedding application: a tracker call that
does not hit a fatal path, or an arbitrary byte write to memory by the
application (which is how canaries get corrupted). -/
inductive Step : State → State → Prop
  | malloc (st : State) (size : Nat) (file func : String) (line p buf : Nat) (st' : State) :
      keepalived_malloc st size file func line p = some (buf, st') → Step st st'
  | free (st : State) (buffer : Nat) (file func : String) (line po qo : Nat) (st' : State) :
      keepalived_free st buffer file func line po qo = some st' → Step st st'
  | realloc (st : State) (buffer size : Nat) (file func : String) (line po qo r : Nat)
      (st' : State) :
      keepalived_realloc st buffer size file func line po qo = some (r, st') → Step st st'
  | corrupt (st : State) (a v : Nat) :
      Step st { st with heap := writeByte st.heap a v }

/-- States the tracker can be in at some point of a run. -/
inductive Reachable : State → Prop
  | init (cap : Nat) (h0 : Nat → Nat) : Reachable (initState cap h0)
  | step {st st' : State} : Reachable st → Step st st' → Reachable st'

/-- Everything a successful get_free_alloc_entry call guarantees. -/
structure GetFreeSpec (st st' : State) (i : Nat) : Prop where
  cap_eq : st'.cap = st.cap
  free_list_eq : st'.free_list = st.free_list
  f_eq : st'.f = st.f
  n_eq : st'.n = st.n
  num_mallocs_eq : st'.num_mallocs = st.num_mallocs
  num_reallocs_eq : st'.num_reallocs = st.num_reallocs
  mem_allocated_eq : st'.mem_allocated = st.mem_allocated
  max_eq : st'.max_mem_allocated = st.max_mem_allocated
  err_eq : st'.memErrDetect = st.memErrDetect
  heap_eq : st'.heap = st.heap
  freed_eq : st'.freedPtrs = st.freedPtrs
  forensic_eq : st'.forensicReports = st.forensicReports
  len_lt : st'.alloc_list.length < st.cap
  len_ge : st.alloc_list.length ≤ st'.alloc_list.length
  i_lt : i < st'.alloc_list.length
  list_or : st'.alloc_list = st.alloc_list ∨ st'.alloc_list = st.alloc_list ++ [emptySlot]
  sel_free : (st'.alloc_list.getD i emptySlot).type = SlotType.FREE_SLOT

/-- Everything a successful keepalived_malloc call guarantees. -/
structure MallocSpec (st : State) (size : Nat) (file func : String) (line : Nat)
    (p buf : Nat) (st' : State) : Prop where
  buf_eq : buf = p
  p_ne : p ≠ 0
  cap_eq : st'.cap = st.cap
  free_list_eq : st'.free_list = st.free_list
  f_eq : st'.f = st.f
  err_eq : st'.memErrDetect = st.memErrDetect
  freed_eq : st'.freedPtrs = st.freedPtrs
  forensic_eq : st'.forensicReports = st.forensicReports
  n_eq : st'.n = st.n + 1
  count_eq : countAllocated st'.alloc_list = countAllocated st.alloc_list + 1
  len_lt : st'.alloc_list.length < st.cap
  len_ge : st.alloc_list.length ≤ st'.alloc_list.length
  heap_eq : st'.heap
    = writeWord (zeroRange st.heap p (size + TRAILER)) (p + size) (add64 size CHECK_VAL)
  pres : ∀ (k : Nat) (e : MEMCHECK), st.alloc_list[k]? = some e →
    e.type ≠ SlotType.FREE_SLOT → st'.alloc_list[k]? = some e
  new_rec : ∃ i, i < st'.alloc_list.length ∧
    st'.alloc_list[i]? = some
      { type := .ALLOCATED, line := line, func := func, file := file, ptr := p, size := size }

/-- The run invariant: n counts the ALLOCATED slots and the table is
within capacity. -/
def TrackerInv (st : State) : Prop :=
  st.n = (countAllocated st.alloc_list : Int) ∧ st.alloc_list.length ≤ st.cap

/-- The table record a free or realloc call is matched against. -/
def matchSlot (st : State) (buffer : Nat) : MEMCHECK :=
  st.alloc_list.getD (findAllocIdx st.alloc_list buffer) emptySlot

/-- The canary comparison of the matched slot fails: the stored trailer
differs from the value recomputed from the recorded size. -/
def canaryBad (st : State) (buffer : Nat) : Prop :=
  readWord st.heap (buffer + (matchSlot st buffer).size)
    ≠ add64 (matchSlot st buffer).size CHECK_VAL

/-- Ring indices in the order the do-while loop visits them: start at j0
and step backward with wraparound, k entries in total. -/
def backIdxSeq (j0 : Nat) : Nat → List Nat
  | 0 => []
  | k + 1 => j0 :: backIdxSeq (prevIdx j0) k

/-- A tracker state holding one ALLOCATED record for address 100 of size
4 whose canary region has been wiped to zero. -/
def stC3 : State :=
  { cap := 4
    alloc_list := [{ type := SlotType.ALLOCATED, line := 7, func := "mk", file := "a.c",
                     ptr := 100, size := 4 }]
    free_list := List.replicate FREE_LIST_SIZE emptySlot
    f := 0
    n := 1
    num_mallocs := 1
    num_reallocs := 0
    mem_allocated := 4
    max_mem_allocated := 4
    memErrDetect := false
    heap := fun _ => 0
    freedPtrs := []
    forensicReports := [] }

/-- A tracker state holding one FREE_NULL misuse record. -/
def stErr : State :=
  { cap := 4
    alloc_list := [{ type := SlotType.FREE_NULL, line := 3, func := "m", file := "a.c",
                     ptr := 0, size := 0 }]
    free_list := List.replicate FREE_LIST_SIZE emptySlot
    f := 0
    n := 0
    num_mallocs := 0
    num_reallocs := 0
    mem_allocated := 0
    max_mem_allocated := 0
    memErrDetect := true
    heap := fun _ => 0
    freedPtrs := []
    forensicReports := [] }

/- Heap lemmas. -/

theorem writeWord_lt (h : Nat → Nat) (a v x : Nat) (hx : x < a) :
    writeWord h a v x = h x := by
  unfold writeWord
  rw [if_neg]
  omega

theorem writeWord_at (h : Nat → Nat) (a v k : Nat) (hk : k < TRAILER) :
    writeWord h a v (a + k) = v / 256 ^ k % 256 := by
  unfold writeWord
  rw [if_pos (by omega), Nat.add_sub_cancel_left]

theorem readWord_writeWord (h : Nat → Nat) (a v : Nat) (hv : v < WORD) :
    readWord (writeWord h a v) a = v := by
  have e0 : writeWord h a v a = v / 256 ^ 0 % 256 := by
    have := writeWord_at h a v 0 (by norm_num [TRAILER])
    simpa using this
  unfold readWord
  rw [e0, writeWord_at h a v 1 (by norm_num [TRAILER]),
    writeWord_at h a v 2 (by norm_num [TRAILER]), writeWord_at h a v 3 (by norm_num [TRAILER]),
    writeWord_at h a v 4 (by norm_num [TRAILER]), writeWord_at h a v 5 (by norm_num [TRAILER]),
    writeWord_at h a v 6 (by norm_num [TRAILER]), writeWord_at h a v 7 (by norm_num [TRAILER])]
  have hv' : v < 2 ^ 64 := by simpa [WORD] using hv
  norm_num
  omega

theorem zeroRange_in (h : Nat → Nat) (a len x : Nat) (h1 : a ≤ x) (h2 : x < a + len) :
    zeroRange h a len x = 0 := by
  unfold zeroRange
  rw [if_pos ⟨h1, h2⟩]

/- Scan lemmas. -/

theorem find_free_aux_le (avoid : Int) (base : Nat) (l : List MEMCHECK) :
    find_free_aux avoid base l ≤ l.length := by
  induction l generalizing base with
  | nil => simp [find_free_aux]
  | cons e r ih =>
    simp only [find_free_aux, List.length_cons]
    split
    · omega
    · have := ih (base + 1)
      omega

theorem find_free_aux_found (avoid : Int) (base : Nat) (l : List MEMCHECK)
    (h : find_free_aux avoid base l < l.length) :
    (l.getD (find_free_aux avoid base l) emptySlot).type = SlotType.FREE_SLOT := by
  induction l generalizing base with
  | nil => simp [find_free_aux] at h
  | cons e r ih =>
    by_cases hc : e.type = SlotType.FREE_SLOT ∧ (base : Int) ≠ avoid
    · simp only [find_free_aux, if_pos hc, List.getD_cons_zero]
      exact hc.1
    · simp only [find_free_aux, if_neg hc, List.length_cons] at h ⊢
      simp only [List.getD_cons_succ]
      exact ih (base + 1) (by omega)

theorem findAllocAux_le (b : Nat) (l : List MEMCHECK) : findAllocAux b l ≤ l.length := by
  induction l with
  | nil => simp [findAllocAux]
  | cons e r ih =>
    simp only [findAllocAux, List.length_cons]
    split
    · omega
    · omega

theorem findAllocAux_found (b : Nat) (l : List MEMCHECK)
    (h : findAllocAux b l < l.length) :
    (l.getD (findAllocAux b l) emptySlot).type = SlotType.ALLOCATED ∧
      (l.getD (findAllocAux b l) emptySlot).ptr = b := by
  induction l with
  | nil => simp [findAllocAux] at h
  | cons e r ih =>
    by_cases hc : e.type = SlotType.ALLOCATED ∧ e.ptr = b
    · simp only [findAllocAux, if_pos hc, List.getD_cons_zero]
      exact hc
    · simp only [findAllocAux, if_neg hc, List.length_cons] at h ⊢
      simp only [List.getD_cons_succ]
      exact ih (by omega)

/- countP over set. -/

theorem countP_set_balance (p : MEMCHECK → Bool) (l : List MEMCHECK) (i : Nat)
    (v : MEMCHECK) (hi : i < l.length) :
    (l.set i v).countP p + (if p (l.getD i emptySlot) then 1 else 0)
      = l.countP p + (if p v then 1 else 0) := by
  induction l generalizing i with
  | nil => simp at hi
  | cons e r ih =>
    cases i with
    | zero =>
      simp only [List.set, List.countP_cons, List.getD_cons_zero]
      split <;> split <;> omega
    | succ k =>
      simp only [List.set, List.countP_cons, List.getD_cons_succ]
      have := ih k (by simpa using Nat.lt_of_succ_lt_succ hi)
      split <;> omega

/- Specification of get_free_alloc_entry. -/

theorem get_free_spec {st : State} {avoid : Int} {i : Nat} {st' : State}
    (h : get_free_alloc_entry st avoid = some (i, st')) : GetFreeSpec st st' i := by
  simp only [get_free_alloc_entry] at h
  by_cases hext : find_free_aux avoid 0 st.alloc_list = st.alloc_list.length
  · rw [if_pos hext] at h
    split at h
    · exact absurd h (by simp)
    · rename_i hlt
      push_neg at hlt
      rw [Option.some.injEq, Prod.mk.injEq] at h
      obtain ⟨hi, hst⟩ := h
      subst hst
      subst hi
      refine ⟨rfl, rfl, rfl, rfl, rfl, rfl, rfl, rfl, rfl, rfl, rfl, rfl, ?_, ?_, ?_, ?_, ?_⟩
      · simpa using hlt
      · simp
      · simp [hext]
      · right; rfl
      · simp only [hext, List.getD_eq_getElem?_getD, List.getElem?_concat_length]
        rfl
  · rw [if_neg hext] at h
    split at h
    · exact absurd h (by simp)
    · rename_i hlt
      push_neg at hlt
      rw [Option.some.injEq, Prod.mk.injEq] at h
      obtain ⟨hi, hst⟩ := h
      subst hst
      subst hi
      have hle := find_free_aux_le avoid 0 st.alloc_list
      have hlt2 : find_free_aux avoid 0 st.alloc_list < st.alloc_list.length := by omega
      refine ⟨rfl, rfl, rfl, rfl, rfl, rfl, rfl, rfl, rfl, rfl, rfl, rfl, ?_, ?_, ?_, ?_, ?_⟩
      · simpa using hlt
      · simp
      · simpa using hlt2
      · left; rfl
      · exact find_free_aux_found avoid 0 st.alloc_list hlt2

theorem countAllocated_get_free {st st' : State} {i : Nat} (s : GetFreeSpec st st' i) :
    countAllocated st'.alloc_list = countAllocated st.alloc_list := by
  rcases s.list_or with h | h <;>
    simp [countAllocated, h, List.countP_append, emptySlot]

theorem get_free_getElem {st st' : State} {i : Nat} (s : GetFreeSpec st st' i) (k : Nat)
    (hk : k < st.alloc_list.length) : st'.alloc_list[k]? = st.alloc_list[k]? := by
  rcases s.list_or with h | h
  · rw [h]
  · rw [h, List.getElem?_append_left hk]

theorem getD_of_getElem? {l : List MEMCHECK} {i : Nat} {e : MEMCHECK}
    (h : l[i]? = some e) (d : MEMCHECK) : l.getD i d = e := by
  simp [List.getD_eq_getElem?_getD, h]

theorem getElem?_of_getD {l : List MEMCHECK} {i : Nat} (hi : i < l.length) (d : MEMCHECK) :
    l[i]? = some (l.getD i d) := by
  simp [List.getD_eq_getElem?_getD, List.getElem?_eq_getElem hi]

/- Specification of keepalived_malloc. -/

theorem zalloc_spec {st : State} {size p buf : Nat} {st1 : State}
    (h : zalloc st size p = some (buf, st1)) :
    p ≠ 0 ∧ buf = p ∧ st1.cap = st.cap ∧ st1.alloc_list = st.alloc_list ∧
    st1.free_list = st.free_list ∧ st1.f = st.f ∧ st1.n = st.n ∧
    st1.num_mallocs = st.num_mallocs ∧ st1.num_reallocs = st.num_reallocs ∧
    st1.memErrDetect = st.memErrDetect ∧ st1.freedPtrs = st.freedPtrs ∧
    st1.forensicReports = st.forensicReports ∧
    st1.heap = zeroRange st.heap p size := by
  unfold zalloc xalloc at h
  by_cases hp : p = 0
  · rw [if_pos hp] at h
    simp at h
  · rw [if_neg hp] at h
    dsimp only at h
    rw [Option.some.injEq, Prod.mk.injEq] at h
    obtain ⟨hb, hs⟩ := h
    subst hs
    exact ⟨hp, hb.symm, rfl, rfl, rfl, rfl, rfl, rfl, rfl, rfl, rfl, rfl, rfl⟩

theorem keepalived_malloc_spec {st : State} {size : Nat} {file func : String}
    {line p buf : Nat} {st' : State}
    (h : keepalived_malloc st size file func line p = some (buf, st')) :
    MallocSpec st size file func line p buf st' := by
  unfold keepalived_malloc at h
  cases hz : zalloc st (size + TRAILER) p with
  | none =>
    rw [hz] at h
    exact absurd h (by simp)
  | some pr =>
    obtain ⟨buf0, st1⟩ := pr
    rw [hz] at h
    dsimp only at h
    obtain ⟨hp, hb0, hcap1, hal1, hfl1, hf1, hn1, hm1, hr1, he1, hfp1, hfr1, hheap1⟩ :=
      zalloc_spec hz
    cases hg : get_free_alloc_entry
        { st1 with heap := writeWord st1.heap (buf0 + size) (add64 size CHECK_VAL) } (-1) with
    | none =>
      rw [hg] at h
      exact absurd h (by simp)
    | some pr2 =>
      obtain ⟨i, st3⟩ := pr2
      rw [hg] at h
      dsimp only at h
      have gs := get_free_spec hg
      rw [Option.some.injEq, Prod.mk.injEq] at h
      obtain ⟨hbuf, hst'⟩ := h
      subst hst'
      subst hbuf
      subst hb0
      have hi3 : i < st3.alloc_list.length := gs.i_lt
      have hsel := gs.sel_free
      refine ⟨rfl, hp, ?_, ?_, ?_, ?_, ?_, ?_, ?_, ?_, ?_, ?_, ?_, ?_, ?_⟩
      · simpa [hcap1] using gs.cap_eq
      · simpa [hfl1] using gs.free_list_eq
      · simpa [hf1] using gs.f_eq
      · simpa [he1] using gs.err_eq
      · simpa [hfp1] using gs.freed_eq
      · simpa [hfr1] using gs.forensic_eq
      · show st3.n + 1 = st.n + 1
        have : st3.n = st.n := by simpa [hn1] using gs.n_eq
        rw [this]
      · show countAllocated (st3.alloc_list.set i _) = _
        have hbal := countP_set_balance (fun e => decide (e.type = SlotType.ALLOCATED))
          st3.alloc_list i
          { type := .ALLOCATED, line := line, func := func, file := file, ptr := buf0, size := size }
          hi3
        rw [if_neg (by simp only [decide_eq_true_eq]; rw [hsel]; decide),
          if_pos (by simp)] at hbal
        have hc3 : countAllocated st3.alloc_list = countAllocated st.alloc_list := by
          have := countAllocated_get_free gs
          simpa [hal1] using this
        simp only [countAllocated] at hc3 ⊢
        omega
      · show (st3.alloc_list.set i _).length < st.cap
        have := gs.len_lt
        simp only [List.length_set]
        simpa [hcap1] using this
      · show st.alloc_list.length ≤ (st3.alloc_list.set i _).length
        have := gs.len_ge
        simp only [List.length_set]
        simpa [hal1] using this
      · show st3.heap = _
        rw [gs.heap_eq]
        show writeWord st1.heap _ _ = _
        rw [hheap1]
      · intro k e hk htne
        have hklen : k < st.alloc_list.length := (List.getElem?_eq_some.mp hk).1
        have h3k : st3.alloc_list[k]? = some e := by
          have hpres := get_free_getElem gs k (by simpa [hal1] using hklen)
          rw [hpres]
          show st1.alloc_list[k]? = some e
          rw [hal1]
          exact hk
        have hki : k ≠ i := by
          intro hkeq
          subst hkeq
          have := getD_of_getElem? h3k emptySlot
          rw [this] at hsel
          exact htne hsel
        show (st3.alloc_list.set i _)[k]? = some e
        rw [List.getElem?_set_ne (Ne.symm hki)]
        exact h3k
      · refine ⟨i, ?_, ?_⟩
        · simpa [List.length_set] using hi3
        · exact List.getElem?_set_eq_of_lt _ hi3

/- Helpers for slot updates. -/

theorem isErrState_ne_free {t : SlotType} (h : isErrState t = true) :
    t ≠ SlotType.FREE_SLOT := by
  cases t <;> simp_all [isErrState]

theorem isErrState_ne_alloc {t : SlotType} (h : isErrState t = true) :
    t ≠ SlotType.ALLOCATED := by
  cases t <;> simp_all [isErrState]

theorem countAllocated_set_not_alloc {l : List MEMCHECK} {i : Nat} {v : MEMCHECK}
    (hi : i < l.length) (hold : (l.getD i emptySlot).type ≠ SlotType.ALLOCATED)
    (hv : v.type ≠ SlotType.ALLOCATED) :
    countAllocated (l.set i v) = countAllocated l := by
  have hbal := countP_set_balance (fun e => decide (e.type = SlotType.ALLOCATED)) l i v hi
  rw [if_neg (by simpa using hold), if_neg (by simpa using hv)] at hbal
  simpa [countAllocated] using hbal

theorem countAllocated_set_alloc_to_not {l : List MEMCHECK} {i : Nat} {v : MEMCHECK}
    (hi : i < l.length) (hold : (l.getD i emptySlot).type = SlotType.ALLOCATED)
    (hv : v.type ≠ SlotType.ALLOCATED) :
    countAllocated (l.set i v) + 1 = countAllocated l := by
  have hbal := countP_set_balance (fun e => decide (e.type = SlotType.ALLOCATED)) l i v hi
  rw [if_pos (by simpa using hold), if_neg (by simpa using hv)] at hbal
  simp only [countAllocated]
  omega

theorem countAllocated_set_same_type {l : List MEMCHECK} {i : Nat} {v : MEMCHECK}
    (hi : i < l.length) (heq : v.type = (l.getD i emptySlot).type) :
    countAllocated (l.set i v) = countAllocated l := by
  have hbal := countP_set_balance (fun e => decide (e.type = SlotType.ALLOCATED)) l i v hi
  by_cases hv : v.type = SlotType.ALLOCATED
  · rw [if_pos (by simp only [decide_eq_true_eq]; rw [← heq]; exact hv),
      if_pos (by simpa using hv)] at hbal
    simp only [countAllocated]
    omega
  · rw [if_neg (by simp only [decide_eq_true_eq]; rw [← heq]; exact hv),
      if_neg (by simpa using hv)] at hbal
    simpa [countAllocated] using hbal

theorem set_pres_of_type_ne {l : List MEMCHECK} {i k : Nat} {v e : MEMCHECK}
    (hk : l[k]? = some e) (hne : (l.getD i emptySlot).type ≠ e.type) :
    (l.set i v)[k]? = some e := by
  have hki : k ≠ i := by
    intro hkeq
    subst hkeq
    rw [getD_of_getElem? hk emptySlot] at hne
    exact hne rfl
  rw [List.getElem?_set_ne (Ne.symm hki)]
  exact hk

theorem findAllocIdx_le (l : List MEMCHECK) (b : Nat) : findAllocIdx l b ≤ l.length :=
  findAllocAux_le b l

theorem findAllocIdx_found (l : List MEMCHECK) (b : Nat) (h : findAllocIdx l b < l.length) :
    (l.getD (findAllocIdx l b) emptySlot).type = SlotType.ALLOCATED ∧
      (l.getD (findAllocIdx l b) emptySlot).ptr = b :=
  findAllocAux_found b l h

/-- Invariant preservation through keepalived_free_realloc_common: the
capacity is untouched, the table stays within capacity, the live counter n
keeps tracking the number of ALLOCATED slots, and slots already recording
a misuse event are never modified. -/
theorem common_inv {st : State} {buffer size : Nat} {file func : String} {line po qo r : Nat}
    {st' : State}
    (h : keepalived_free_realloc_common st buffer size file func line po qo = some (r, st')) :
    st'.cap = st.cap ∧
    (st.alloc_list.length ≤ st.cap → st'.alloc_list.length ≤ st.cap) ∧
    (st.n = (countAllocated st.alloc_list : Int) →
      st'.n = (countAllocated st'.alloc_list : Int)) ∧
    (∀ (k : Nat) (e : MEMCHECK), st.alloc_list[k]? = some e → isErrState e.type = true →
      st'.alloc_list[k]? = some e) := by
  unfold keepalived_free_realloc_common at h
  by_cases hb : buffer = 0
  · rw [if_pos hb] at h
    cases hg : get_free_alloc_entry st (-1) with
    | none =>
      rw [hg] at h
      exact absurd h (by simp)
    | some pr =>
      obtain ⟨i1, st1⟩ := pr
      rw [hg] at h
      dsimp only at h
      have gs := get_free_spec hg
      have hi1 : i1 < st1.alloc_list.length := gs.i_lt
      have hfree1 : (st1.alloc_list.getD i1 emptySlot).type = SlotType.FREE_SLOT := gs.sel_free
      by_cases hsz : size = 0
      · simp only [if_pos hsz] at h
        rw [Option.some.injEq, Prod.mk.injEq] at h
        obtain ⟨hr, hst⟩ := h
        subst hst
        refine ⟨?_, ?_, ?_, ?_⟩
        · simpa [recordBadCall] using gs.cap_eq
        · intro _
          simp only [recordBadCall, List.length_set]
          have := gs.len_lt
          omega
        · intro hn
          simp only [recordBadCall]
          have hcnt : countAllocated (st1.alloc_list.set i1
              { type := SlotType.FREE_NULL, line := line, func := func, file := file,
                ptr := 0, size := 0 }) = countAllocated st1.alloc_list :=
            countAllocated_set_not_alloc hi1 (by rw [hfree1]; decide) (by simp)
          rw [hcnt, countAllocated_get_free gs, ← hn]
          exact gs.n_eq
        · intro k e hk he
          simp only [recordBadCall]
          have hklen : k < st.alloc_list.length := (List.getElem?_eq_some.mp hk).1
          have h1k : st1.alloc_list[k]? = some e := by
            rw [get_free_getElem gs k hklen]
            exact hk
          exact set_pres_of_type_ne h1k
            (by rw [hfree1]; exact Ne.symm (isErrState_ne_free he))
      · simp only [if_neg hsz] at h
        cases hm : keepalived_malloc
            (recordBadCall st1 i1 SlotType.REALLOC_NULL 0 0 file func line)
            size file func line po with
        | none =>
          rw [hm] at h
          exact absurd h (by simp)
        | some pr2 =>
          obtain ⟨buf3, st3⟩ := pr2
          rw [hm] at h
          dsimp only at h
          rw [Option.some.injEq, Prod.mk.injEq] at h
          obtain ⟨hr, hst⟩ := h
          subst hst
          have ms := keepalived_malloc_spec hm
          have hcapR : (recordBadCall st1 i1 SlotType.REALLOC_NULL 0 0 file func line).cap
              = st1.cap := rfl
          refine ⟨?_, ?_, ?_, ?_⟩
          · rw [ms.cap_eq, hcapR]
            exact gs.cap_eq
          · intro _
            have h1 := ms.len_lt
            rw [hcapR, gs.cap_eq] at h1
            omega
          · intro hn
            have hcnt : countAllocated ((recordBadCall st1 i1 SlotType.REALLOC_NULL
                0 0 file func line).alloc_list) = countAllocated st1.alloc_list := by
              simp only [recordBadCall]
              exact countAllocated_set_not_alloc hi1 (by rw [hfree1]; decide) (by simp)
            have hnR : (recordBadCall st1 i1 SlotType.REALLOC_NULL 0 0 file func line).n
                = st1.n := rfl
            rw [ms.n_eq, hnR, gs.n_eq, hn, ms.count_eq, hcnt, countAllocated_get_free gs]
            push_cast
            ring
          · intro k e hk he
            have hklen : k < st.alloc_list.length := (List.getElem?_eq_some.mp hk).1
            have h1k : st1.alloc_list[k]? = some e := by
              rw [get_free_getElem gs k hklen]
              exact hk
            have hRk : (recordBadCall st1 i1 SlotType.REALLOC_NULL
                0 0 file func line).alloc_list[k]? = some e := by
              simp only [recordBadCall]
              exact set_pres_of_type_ne h1k
                (by rw [hfree1]; exact Ne.symm (isErrState_ne_free he))
            exact ms.pres k e hRk (isErrState_ne_free he)
  · rw [if_neg hb] at h
    dsimp only at h
    by_cases hfound : findAllocIdx st.alloc_list buffer = st.alloc_list.length
    · simp only [if_pos hfound] at h
      cases hg : get_free_alloc_entry st (-1) with
      | none =>
        rw [hg] at h
        exact absurd h (by simp)
      | some pr =>
        obtain ⟨i2, st1⟩ := pr
        rw [hg] at h
        dsimp only at h
        have gs := get_free_spec hg
        have hi2 : i2 < st1.alloc_list.length := gs.i_lt
        have hfree1 : (st1.alloc_list.getD i2 emptySlot).type = SlotType.FREE_SLOT := gs.sel_free
        rw [Option.some.injEq, Prod.mk.injEq] at h
        obtain ⟨hr, hst⟩ := h
        subst hst
        have htne : (if size = 0 then SlotType.FREE_NOT_ALLOC
            else SlotType.REALLOC_NOT_ALLOC) ≠ SlotType.ALLOCATED := by
          split <;> decide
        refine ⟨?_, ?_, ?_, ?_⟩
        · simpa [recordBadCall] using gs.cap_eq
        · intro _
          simp only [recordBadCall, List.length_set]
          have := gs.len_lt
          omega
        · intro hn
          simp only [recordBadCall]
          have hcnt := countAllocated_set_not_alloc (v :=
            { type := if size = 0 then SlotType.FREE_NOT_ALLOC else SlotType.REALLOC_NOT_ALLOC,
              line := line, func := func, file := file, ptr := buffer, size := size })
            hi2 (by rw [hfree1]; decide) htne
          rw [hcnt, countAllocated_get_free gs, ← hn]
          exact gs.n_eq
        · intro k e hk he
          simp only [recordBadCall]
          have hklen : k < st.alloc_list.length := (List.getElem?_eq_some.mp hk).1
          have h1k : st1.alloc_list[k]? = some e := by
            rw [get_free_getElem gs k hklen]
            exact hk
          exact set_pres_of_type_ne h1k
            (by rw [hfree1]; exact Ne.symm (isErrState_ne_free he))
    · simp only [if_neg hfound] at h
      have hfi : findAllocIdx st.alloc_list buffer < st.alloc_list.length :=
        lt_of_le_of_ne (findAllocIdx_le st.alloc_list buffer) hfound
      obtain ⟨hty, hptr⟩ := findAllocIdx_found st.alloc_list buffer hfi
      set idx := findAllocIdx st.alloc_list buffer with hidx
      set S := st.alloc_list.getD idx emptySlot with hS
      by_cases hbad : readWord st.heap (buffer + S.size) ≠ add64 S.size CHECK_VAL
      · simp only [if_pos hbad] at h
        by_cases hsz : size = 0
        · simp only [if_pos hsz] at h
          rw [Option.some.injEq, Prod.mk.injEq] at h
          obtain ⟨hr, hst⟩ := h
          subst hst
          refine ⟨rfl, ?_, ?_, ?_⟩
          · intro hlen
            simpa [List.length_set] using hlen
          · intro hn
            show st.n - 1 = (countAllocated (st.alloc_list.set idx
              { type := SlotType.OVERRUN, line := S.line, func := S.func,
                file := S.file, ptr := S.ptr, size := S.size }) : Int)
            have hcnt := countAllocated_set_alloc_to_not (l := st.alloc_list) (i := idx)
              (v := { type := SlotType.OVERRUN, line := S.line, func := S.func,
                      file := S.file, ptr := S.ptr, size := S.size })
              hfi hty (by simp)
            rw [hn]
            omega
          · intro k e hk he
            exact set_pres_of_type_ne hk
              (by rw [← hS, hty]; exact Ne.symm (isErrState_ne_alloc he))
        · simp only [if_neg hsz] at h
          cases hg : get_free_alloc_entry st (-1) with
          | none =>
            rw [hg] at h
            exact absurd h (by simp)
          | some pr =>
            obtain ⟨j, st1⟩ := pr
            rw [hg] at h
            dsimp only at h
            have gs := get_free_spec hg
            have hj : j < st1.alloc_list.length := gs.i_lt
            have hfreej : (st1.alloc_list.getD j emptySlot).type = SlotType.FREE_SLOT :=
              gs.sel_free
            rw [Option.some.injEq, Prod.mk.injEq] at h
            obtain ⟨hr, hst⟩ := h
            subst hst
            have h1i : st1.alloc_list[idx]? = some S := by
              rw [get_free_getElem gs _ hfi]
              exact getElem?_of_getD hfi emptySlot
            have hji : j ≠ idx := by
              intro hcon
              rw [hcon, getD_of_getElem? h1i emptySlot, hty] at hfreej
              exact absurd hfreej (by decide)
            have hiX : idx < (st1.alloc_list.set j
                { type := SlotType.OVERRUN, line := S.line, func := S.func,
                  file := S.file, ptr := S.ptr, size := S.size }).length := by
              rw [List.length_set]
              exact lt_of_lt_of_le hfi gs.len_ge
            refine ⟨gs.cap_eq, ?_, ?_, ?_⟩
            · intro _
              show ((st1.alloc_list.set j
                { type := SlotType.OVERRUN, line := S.line, func := S.func,
                  file := S.file, ptr := S.ptr, size := S.size }).set idx
                { type := ((st1.alloc_list.set j
                    { type := SlotType.OVERRUN, line := S.line, func := S.func,
                      file := S.file, ptr := S.ptr, size := S.size }).getD idx
                      emptySlot).type,
                  line := line, func := func, file := file, ptr := qo,
                  size := size }).length ≤ st.cap
              rw [List.length_set, List.length_set]
              have := gs.len_lt
              omega
            · intro hn
              show st1.n = (countAllocated ((st1.alloc_list.set j
                { type := SlotType.OVERRUN, line := S.line, func := S.func,
                  file := S.file, ptr := S.ptr, size := S.size }).set idx
                { type := ((st1.alloc_list.set j
                    { type := SlotType.OVERRUN, line := S.line, func := S.func,
                      file := S.file, ptr := S.ptr, size := S.size }).getD idx
                      emptySlot).type,
                  line := line, func := func, file := file, ptr := qo,
                  size := size }) : Int)
              have hc1 : countAllocated (st1.alloc_list.set j
                  { type := SlotType.OVERRUN, line := S.line, func := S.func,
                    file := S.file, ptr := S.ptr, size := S.size })
                  = countAllocated st1.alloc_list :=
                countAllocated_set_not_alloc hj (by rw [hfreej]; decide) (by simp)
              have hc2 := countAllocated_set_same_type
                (l := st1.alloc_list.set j
                  { type := SlotType.OVERRUN, line := S.line, func := S.func,
                    file := S.file, ptr := S.ptr, size := S.size })
                (i := idx)
                (v :=
                  { type := ((st1.alloc_list.set j
                        { type := SlotType.OVERRUN, line := S.line, func := S.func,
                          file := S.file, ptr := S.ptr, size := S.size }).getD idx
                        emptySlot).type,
                    line := line, func := func, file := file, ptr := qo, size := size })
                hiX rfl
              rw [hc2, hc1, countAllocated_get_free gs, ← hn]
              exact gs.n_eq
            · intro k e hk he
              have hklen : k < st.alloc_list.length := (List.getElem?_eq_some.mp hk).1
              have h1k : st1.alloc_list[k]? = some e := by
                rw [get_free_getElem gs k hklen]
                exact hk
              have hXk : (st1.alloc_list.set j
                  { type := SlotType.OVERRUN, line := S.line, func := S.func,
                    file := S.file, ptr := S.ptr, size := S.size })[k]? = some e :=
                set_pres_of_type_ne h1k
                  (by rw [hfreej]; exact Ne.symm (isErrState_ne_free he))
              refine set_pres_of_type_ne hXk ?_
              have hXgd : (st1.alloc_list.set j
                  { type := SlotType.OVERRUN, line := S.line, func := S.func,
                    file := S.file, ptr := S.ptr, size := S.size }).getD idx emptySlot
                  = S := by
                rw [List.getD_eq_getElem?_getD, List.getElem?_set_ne hji,
                  ← List.getD_eq_getElem?_getD]
                exact getD_of_getElem? h1i emptySlot
              rw [hXgd, hty]
              exact Ne.symm (isErrState_ne_alloc he)
      · simp only [if_neg hbad] at h
        by_cases hsz : size = 0
        · simp only [if_pos hsz] at h
          rw [Option.some.injEq, Prod.mk.injEq] at h
          obtain ⟨hr, hst⟩ := h
          subst hst
          refine ⟨rfl, ?_, ?_, ?_⟩
          · intro hlen
            simpa [List.length_set] using hlen
          · intro hn
            show st.n - 1 = (countAllocated (st.alloc_list.set idx
              { type := SlotType.FREE_SLOT, line := S.line, func := S.func,
                file := S.file, ptr := S.ptr, size := S.size }) : Int)
            have hcnt := countAllocated_set_alloc_to_not (l := st.alloc_list) (i := idx)
              (v := { type := SlotType.FREE_SLOT, line := S.line, func := S.func,
                      file := S.file, ptr := S.ptr, size := S.size })
              hfi hty (by simp)
            rw [hn]
            omega
          · intro k e hk he
            exact set_pres_of_type_ne hk
              (by rw [← hS, hty]; exact Ne.symm (isErrState_ne_alloc he))
        · simp only [if_neg hsz] at h
          rw [Option.some.injEq, Prod.mk.injEq] at h
          obtain ⟨hr, hst⟩ := h
          subst hst
          refine ⟨rfl, ?_, ?_, ?_⟩
          · intro hlen
            simpa [List.length_set] using hlen
          · intro hn
            show st.n = (countAllocated (st.alloc_list.set idx
              { type := S.type, line := line, func := func, file := file,
                ptr := qo, size := size }) : Int)
            have hc2 := countAllocated_set_same_type
              (l := st.alloc_list) (i := idx)
              (v := { type := S.type, line := line, func := func, file := file,
                      ptr := qo, size := size })
              hfi (by
                show S.type = (st.alloc_list.getD idx emptySlot).type
                exact congrArg MEMCHECK.type hS)
            rw [hc2, ← hn]
          · intro k e hk he
            exact set_pres_of_type_ne hk
              (by rw [← hS, hty]; exact Ne.symm (isErrState_ne_alloc he))

/- Step preservation and reachability invariants. -/

theorem free_eq_common {st : State} {buffer : Nat} {file func : String} {line po qo : Nat}
    {st' : State} (hm : keepalived_free st buffer file func line po qo = some st') :
    ∃ r, keepalived_free_realloc_common st buffer 0 file func line po qo = some (r, st') := by
  unfold keepalived_free at hm
  rw [Option.map_eq_some'] at hm
  obtain ⟨⟨r, s⟩, h1, h2⟩ := hm
  dsimp at h2
  subst h2
  exact ⟨r, h1⟩

theorem realloc_eq_common {st : State} {buffer size : Nat} {file func : String}
    {line po qo r : Nat} {st' : State}
    (hm : keepalived_realloc st buffer size file func line po qo = some (r, st')) :
    ∃ sz r', keepalived_free_realloc_common st buffer sz file func line po qo
      = some (r', st') := by
  unfold keepalived_realloc at hm
  by_cases hsz : size = 0
  · rw [if_pos hsz] at hm
    rw [Option.map_eq_some'] at hm
    obtain ⟨s, h1, h2⟩ := hm
    rw [Prod.mk.injEq] at h2
    obtain ⟨r0, h3⟩ := free_eq_common h1
    exact ⟨0, r0, by rw [h3, h2.2]⟩
  · rw [if_neg hsz] at hm
    exact ⟨size, r, hm⟩

theorem step_cap {st st' : State} (hs : Step st st') : st'.cap = st.cap := by
  cases hs with
  | malloc _ _ _ _ _ _ _ hm => exact (keepalived_malloc_spec hm).cap_eq
  | free _ _ _ _ _ _ _ hm =>
    obtain ⟨r, hc⟩ := free_eq_common hm
    exact (common_inv hc).1
  | realloc _ _ _ _ _ _ _ _ _ hm =>
    obtain ⟨sz, r', hc⟩ := realloc_eq_common hm
    exact (common_inv hc).1
  | corrupt _ _ => rfl

theorem step_inv {st st' : State} (hs : Step st st') (hinv : TrackerInv st) :
    TrackerInv st' := by
  obtain ⟨hn, hlen⟩ := hinv
  cases hs with
  | malloc _ _ _ _ _ _ _ hm =>
    have ms := keepalived_malloc_spec hm
    constructor
    · rw [ms.n_eq, ms.count_eq, hn]
      push_cast
      ring
    · have h1 := ms.len_lt
      have h2 := ms.cap_eq
      omega
  | free _ _ _ _ _ _ _ hm =>
    obtain ⟨r, hc⟩ := free_eq_common hm
    obtain ⟨h1, h2, h3, _⟩ := common_inv hc
    exact ⟨h3 hn, by have := h2 hlen; omega⟩
  | realloc _ _ _ _ _ _ _ _ _ hm =>
    obtain ⟨sz, r', hc⟩ := realloc_eq_common hm
    obtain ⟨h1, h2, h3, _⟩ := common_inv hc
    exact ⟨h3 hn, by have := h2 hlen; omega⟩
  | corrupt _ _ => exact ⟨hn, hlen⟩

theorem step_err_pres {st st' : State} (hs : Step st st') :
    ∀ (k : Nat) (e : MEMCHECK), st.alloc_list[k]? = some e → isErrState e.type = true →
      st'.alloc_list[k]? = some e := by
  cases hs with
  | malloc _ _ _ _ _ _ _ hm =>
    intro k e hk he
    exact (keepalived_malloc_spec hm).pres k e hk (isErrState_ne_free he)
  | free _ _ _ _ _ _ _ hm =>
    obtain ⟨r, hc⟩ := free_eq_common hm
    exact (common_inv hc).2.2.2
  | realloc _ _ _ _ _ _ _ _ _ hm =>
    obtain ⟨sz, r', hc⟩ := realloc_eq_common hm
    exact (common_inv hc).2.2.2
  | corrupt _ _ =>
    intro k e hk he
    exact hk

theorem reachable_inv {st : State} (h : Reachable st) : TrackerInv st := by
  induction h with
  | init cap h0 => exact ⟨rfl, by simp [initState]⟩
  | step hr hs ih => exact step_inv hs ih

/- Branch characterizations of keepalived_free_realloc_common. -/

/-- A matched free whose canary check fails: the slot is marked OVERRUN,
the error bit is raised, the underlying free is still called, n and
mem_allocated are decremented, and a LAST_FREE ring entry holding the
slot index is pushed. -/
theorem common_free_found_bad {st : State} {buffer : Nat} {file func : String}
    {line po qo : Nat} {st' : State}
    (hb : buffer ≠ 0)
    (hfi : findAllocIdx st.alloc_list buffer < st.alloc_list.length)
    (hbad : canaryBad st buffer)
    (hm : keepalived_free st buffer file func line po qo = some st') :
    st'.alloc_list = st.alloc_list.set (findAllocIdx st.alloc_list buffer)
      { type := SlotType.OVERRUN, line := (matchSlot st buffer).line,
        func := (matchSlot st buffer).func, file := (matchSlot st buffer).file,
        ptr := (matchSlot st buffer).ptr, size := (matchSlot st buffer).size } ∧
    st'.memErrDetect = true ∧
    st'.freedPtrs = buffer :: st.freedPtrs ∧
    st'.n = st.n - 1 ∧
    st'.mem_allocated = sub64 st.mem_allocated (matchSlot st buffer).size ∧
    st'.free_list = st.free_list.set st.f
      { type := SlotType.LAST_FREE, line := line, func := func, file := file,
        ptr := buffer, size := findAllocIdx st.alloc_list buffer } ∧
    st'.f = (st.f + 1) % FREE_LIST_SIZE ∧
    st'.heap = st.heap ∧
    st'.forensicReports = st.forensicReports := by
  obtain ⟨r, hc⟩ := free_eq_common hm
  unfold keepalived_free_realloc_common at hc
  rw [if_neg hb] at hc
  dsimp only at hc
  rw [if_neg (Nat.ne_of_lt hfi)] at hc
  rw [if_pos (by exact hbad)] at hc
  simp only [eq_self_iff_true, if_true] at hc
  rw [Option.some.injEq, Prod.mk.injEq] at hc
  obtain ⟨hr, hst⟩ := hc
  subst hst
  exact ⟨rfl, rfl, rfl, rfl, rfl, rfl, rfl, rfl, rfl⟩

/-- A matched free whose canary check passes: the slot is marked
FREE_SLOT, the error bit is untouched, the underlying free is called, n
and mem_allocated are decremented, and a LAST_FREE ring entry holding the
slot index is pushed. -/
theorem common_free_found_ok {st : State} {buffer : Nat} {file func : String}
    {line po qo : Nat} {st' : State}
    (hb : buffer ≠ 0)
    (hfi : findAllocIdx st.alloc_list buffer < st.alloc_list.length)
    (hok : ¬canaryBad st buffer)
    (hm : keepalived_free st buffer file func line po qo = some st') :
    st'.alloc_list = st.alloc_list.set (findAllocIdx st.alloc_list buffer)
      { type := SlotType.FREE_SLOT, line := (matchSlot st buffer).line,
        func := (matchSlot st buffer).func, file := (matchSlot st buffer).file,
        ptr := (matchSlot st buffer).ptr, size := (matchSlot st buffer).size } ∧
    st'.memErrDetect = st.memErrDetect ∧
    st'.freedPtrs = buffer :: st.freedPtrs ∧
    st'.n = st.n - 1 ∧
    st'.mem_allocated = sub64 st.mem_allocated (matchSlot st buffer).size ∧
    st'.free_list = st.free_list.set st.f
      { type := SlotType.LAST_FREE, line := line, func := func, file := file,
        ptr := buffer, size := findAllocIdx st.alloc_list buffer } ∧
    st'.f = (st.f + 1) % FREE_LIST_SIZE ∧
    st'.heap = st.heap ∧
    st'.forensicReports = st.forensicReports := by
  obtain ⟨r, hc⟩ := free_eq_common hm
  unfold keepalived_free_realloc_common at hc
  rw [if_neg hb] at hc
  dsimp only at hc
  rw [if_neg (Nat.ne_of_lt hfi)] at hc
  rw [if_neg (by exact hok)] at hc
  simp only [eq_self_iff_true, if_true] at hc
  rw [Option.some.injEq, Prod.mk.injEq] at hc
  obtain ⟨hr, hst⟩ := hc
  subst hst
  exact ⟨rfl, rfl, rfl, rfl, rfl, rfl, rfl, rfl, rfl⟩

/-- An unmatched free or realloc of a non-nil pointer: a
FREE_NOT_ALLOC or REALLOC_NOT_ALLOC record is stored, the error bit is
raised, the forensic lookup runs, NULL is returned, and neither the
underlying allocator nor any other tracker state is touched. -/
theorem common_notfound_spec {st : State} {buffer size : Nat} {file func : String}
    {line po qo r : Nat} {st' : State}
    (hb : buffer ≠ 0)
    (hnf : findAllocIdx st.alloc_list buffer = st.alloc_list.length)
    (hm : keepalived_free_realloc_common st buffer size file func line po qo
      = some (r, st')) :
    r = 0 ∧
    (∃ i2 : Nat, i2 < st'.alloc_list.length ∧ st'.alloc_list[i2]? = some
      { type := if size = 0 then SlotType.FREE_NOT_ALLOC else SlotType.REALLOC_NOT_ALLOC,
        line := line, func := func, file := file, ptr := buffer, size := size }) ∧
    st'.memErrDetect = true ∧
    st'.forensicReports = forensicResult st.free_list st.f buffer :: st.forensicReports ∧
    st'.freedPtrs = st.freedPtrs ∧
    st'.free_list = st.free_list ∧
    st'.f = st.f ∧
    st'.n = st.n ∧
    st'.heap = st.heap := by
  unfold keepalived_free_realloc_common at hm
  rw [if_neg hb] at hm
  dsimp only at hm
  rw [if_pos hnf] at hm
  cases hg : get_free_alloc_entry st (-1) with
  | none =>
    rw [hg] at hm
    exact absurd hm (by simp)
  | some pr =>
    obtain ⟨i2, st1⟩ := pr
    rw [hg] at hm
    dsimp only at hm
    have gs := get_free_spec hg
    rw [Option.some.injEq, Prod.mk.injEq] at hm
    obtain ⟨hr, hst⟩ := hm
    subst hst
    refine ⟨hr.symm, ⟨i2, ?_, ?_⟩, rfl, ?_, gs.freed_eq, gs.free_list_eq, gs.f_eq,
      gs.n_eq, gs.heap_eq⟩
    · show i2 < (st1.alloc_list.set i2 _).length
      rw [List.length_set]
      exact gs.i_lt
    · show (st1.alloc_list.set i2 _)[i2]? = _
      exact List.getElem?_set_eq_of_lt _ gs.i_lt
    · show forensicResult st1.free_list st1.f buffer :: st1.forensicReports = _
      rw [gs.free_list_eq, gs.f_eq, gs.forensic_eq]

/-- A realloc of the nil pointer with a nonzero size: a REALLOC_NULL
record is stored and the error bit raised, then the call delegates to
keepalived_malloc, so a fresh non-nil allocation of the requested size is
returned and the live count still goes up by one. -/
theorem common_realloc_null_spec {st : State} {size : Nat} {file func : String}
    {line po qo r : Nat} {st' : State}
    (hsz : size ≠ 0)
    (hm : keepalived_free_realloc_common st 0 size file func line po qo = some (r, st')) :
    r = po ∧ po ≠ 0 ∧ st'.memErrDetect = true ∧
    (∃ i1 : Nat, st'.alloc_list[i1]? = some
      ({ type := SlotType.REALLOC_NULL, line := line, func := func, file := file,
         ptr := 0, size := 0 } : MEMCHECK)) ∧
    (∃ i3 : Nat, st'.alloc_list[i3]? = some
      ({ type := SlotType.ALLOCATED, line := line, func := func, file := file,
         ptr := po, size := size } : MEMCHECK)) ∧
    st'.n = st.n + 1 := by
  unfold keepalived_free_realloc_common at hm
  rw [if_pos rfl] at hm
  cases hg : get_free_alloc_entry st (-1) with
  | none =>
    rw [hg] at hm
    exact absurd hm (by simp)
  | some pr =>
    obtain ⟨i1, st1⟩ := pr
    rw [hg] at hm
    dsimp only at hm
    rw [if_neg hsz, if_neg hsz] at hm
    have gs := get_free_spec hg
    cases hmal : keepalived_malloc
        (recordBadCall st1 i1 SlotType.REALLOC_NULL 0 0 file func line)
        size file func line po with
    | none =>
      rw [hmal] at hm
      exact absurd hm (by simp)
    | some pr2 =>
      obtain ⟨buf3, st3⟩ := pr2
      rw [hmal] at hm
      dsimp only at hm
      rw [Option.some.injEq, Prod.mk.injEq] at hm
      obtain ⟨hr, hst⟩ := hm
      subst hst
      have ms := keepalived_malloc_spec hmal
      have hRi1 : (recordBadCall st1 i1 SlotType.REALLOC_NULL 0 0
          file func line).alloc_list[i1]? = some
          ({ type := SlotType.REALLOC_NULL, line := line, func := func, file := file,
             ptr := 0, size := 0 } : MEMCHECK) := by
        simp only [recordBadCall]
        exact List.getElem?_set_eq_of_lt _ gs.i_lt
      refine ⟨?_, ms.p_ne, ?_, ⟨i1, ?_⟩, ?_, ?_⟩
      · rw [← hr, ms.buf_eq]
      · rw [ms.err_eq]
        rfl
      · exact ms.pres i1 _ hRi1 (by simp)
      · obtain ⟨i3, hlt3, h3⟩ := ms.new_rec
        exact ⟨i3, h3⟩
      · rw [ms.n_eq]
        show st1.n + 1 = st.n + 1
        rw [gs.n_eq]

/- Dump loop characterization. -/

theorem dump_fold_overrun (l : List MEMCHECK) : ∀ acc : Nat × Nat × Nat,
    (l.foldl dumpStep acc).1 = acc.1 + overrunCount l := by
  induction l with
  | nil =>
    intro acc
    simp [overrunCount]
  | cons e r ih =>
    intro acc
    obtain ⟨t, ln, fn, fl, p, sz⟩ := e
    cases t <;>
      simp [dumpStep, overrunCount, List.countP_cons, ih] <;>
      try omega

theorem dump_fold_badptr (l : List MEMCHECK) : ∀ acc : Nat × Nat × Nat,
    (l.foldl dumpStep acc).2.1 = acc.2.1 + badptrCount l := by
  induction l with
  | nil =>
    intro acc
    simp [badptrCount]
  | cons e r ih =>
    intro acc
    obtain ⟨t, ln, fn, fl, p, sz⟩ := e
    cases t <;>
      simp [dumpStep, badptrCount, isBadPtr, List.countP_cons, ih] <;> omega

theorem dump_fold_sum_zero (l : List MEMCHECK) : ∀ acc : Nat × Nat × Nat,
    countAllocated l = 0 → (l.foldl dumpStep acc).2.2 = acc.2.2 := by
  induction l with
  | nil =>
    intro acc _
    rfl
  | cons e r ih =>
    intro acc hc
    obtain ⟨t, ln, fn, fl, p, sz⟩ := e
    cases t <;>
      simp_all [dumpStep, countAllocated, List.countP_cons]

/- Forensic scan characterization. -/

theorem scanAux_eq_find (fl : List MEMCHECK) (buffer : Nat)
    (hring : ∀ e ∈ fl, e.type = SlotType.LAST_FREE ∨ e.ptr = 0) (hb : buffer ≠ 0) :
    ∀ (k j0 : Nat),
    scanAux fl buffer j0 k
      = (backIdxSeq j0 k).find? (fun j => (fl.getD j emptySlot).ptr == buffer) := by
  intro k
  induction k with
  | zero =>
    intro j0
    rfl
  | succ k ih =>
    intro j0
    by_cases hc : (fl.getD j0 emptySlot).ptr = buffer
    · have htype : (fl.getD j0 emptySlot).type = SlotType.LAST_FREE := by
        by_cases hj : j0 < fl.length
        · have hmem : fl.getD j0 emptySlot ∈ fl := by
            rw [List.getD_eq_getElem?_getD, List.getElem?_eq_getElem hj]
            exact List.getElem_mem hj
          rcases hring _ hmem with h | h
          · exact h
          · rw [h] at hc
            exact absurd hc.symm hb
        · rw [List.getD_eq_getElem?_getD, List.getElem?_eq_none (le_of_not_lt hj)] at hc
          exact absurd hc.symm hb
      show scanAux fl buffer j0 (k + 1) = _
      rw [scanAux, if_pos ⟨hc, htype⟩]
      rw [backIdxSeq]
      simp only [List.find?_cons]
      split
      · rfl
      · rename_i hfalse
        exact absurd hc (beq_eq_false_iff_ne.mp hfalse)
    · show scanAux fl buffer j0 (k + 1) = _
      rw [scanAux, if_neg (by intro hcon; exact hc hcon.1)]
      rw [backIdxSeq]
      rw [ih (prevIdx j0)]
      simp only [List.find?_cons]
      split
      · rename_i htrue
        exact absurd (beq_iff_eq.mp htrue) hc
      · rfl

/- Claim theorems. -/

/-- C1: the final dump ends with the no-problems verdict exactly when the
allocation table holds no ALLOCATED slot, no bad-pointer record and no
OVERRUN record; on reachable states the verdict is thereby a function of
the table alone. -/
theorem C1_final_verdict (st : State) (hre : Reachable st) :
    finalVerdictOk st = true ↔
      (countAllocated st.alloc_list = 0 ∧ badptrCount st.alloc_list = 0 ∧
        overrunCount st.alloc_list = 0) := by
  obtain ⟨hn, _⟩ := reachable_inv hre
  have h1 := dump_fold_overrun st.alloc_list (0, 0, 0)
  have h2 := dump_fold_badptr st.alloc_list (0, 0, 0)
  simp only [Prod.fst, Prod.snd, Nat.zero_add] at h1 h2
  simp only [finalVerdictOk, dumpCounts, decide_eq_true_eq]
  constructor
  · rintro ⟨hsum, hn0, hbp, hov⟩
    have hc0 : countAllocated st.alloc_list = 0 := by
      rw [hn0] at hn
      exact_mod_cast hn.symm
    exact ⟨hc0, by omega, by omega⟩
  · rintro ⟨hc0, hbp, hov⟩
    have hsum := dump_fold_sum_zero st.alloc_list (0, 0, 0) hc0
    refine ⟨hsum, ?_, by omega, by omega⟩
    rw [hn, hc0]
    simp

/-- C1 witness: the verdict equivalence instantiated at the freshly
started tracker. -/
theorem C1_final_verdict_witness :
    finalVerdictOk (initState 4 (fun _ => 0)) = true ↔
      (countAllocated (initState 4 (fun _ => 0)).alloc_list = 0 ∧
        badptrCount (initState 4 (fun _ => 0)).alloc_list = 0 ∧
        overrunCount (initState 4 (fun _ => 0)).alloc_list = 0) :=
  C1_final_verdict _ (Reachable.init 4 (fun _ => 0))

/-- C2: a free of a non-nil pointer that matches no ALLOCATED slot stores
a FREE_NOT_ALLOC record, raises the error indicator, performs the
forensic ring lookup, and returns without calling the underlying free. -/
theorem C2_free_not_found (st : State) (buffer : Nat) (file func : String)
    (line po qo : Nat) (st' : State)
    (hb : buffer ≠ 0)
    (hnf : findAllocIdx st.alloc_list buffer = st.alloc_list.length)
    (hm : keepalived_free st buffer file func line po qo = some st') :
    (∃ i2 : Nat, i2 < st'.alloc_list.length ∧ st'.alloc_list[i2]? = some
      ({ type := SlotType.FREE_NOT_ALLOC, line := line, func := func, file := file,
         ptr := buffer, size := 0 } : MEMCHECK)) ∧
    st'.memErrDetect = true ∧
    st'.forensicReports = forensicResult st.free_list st.f buffer :: st.forensicReports ∧
    st'.freedPtrs = st.freedPtrs := by
  obtain ⟨r, hc⟩ := free_eq_common hm
  obtain ⟨_, ⟨i2, hlt, hrec⟩, herr, hfor, hfreed, _⟩ := common_notfound_spec hb hnf hc
  refine ⟨⟨i2, hlt, ?_⟩, herr, hfor, hfreed⟩
  simpa using hrec

/-- C2 witness: freeing an unknown pointer on the fresh tracker. -/
theorem C2_free_not_found_witness :
    ∃ st', keepalived_free (initState 4 (fun _ => 0)) 77 "b.c" "fn" 5 0 0 = some st' ∧
      st'.memErrDetect = true ∧ st'.freedPtrs = (initState 4 (fun _ => 0)).freedPtrs := by
  obtain ⟨st', h⟩ : ∃ st',
      keepalived_free (initState 4 (fun _ => 0)) 77 "b.c" "fn" 5 0 0 = some st' := ⟨_, rfl⟩
  have hc := C2_free_not_found (initState 4 (fun _ => 0)) 77 "b.c" "fn" 5 0 0 st'
    (by decide) rfl h
  exact ⟨st', h, hc.2.1, hc.2.2.2⟩

/-- C4: on every reachable state the table length is at most the
build-time capacity, and a slot request succeeding from such a state
leaves the table strictly below the capacity, since the extension that
would reach it instead hits the fatal assert. -/
theorem C4_table_capacity (st : State) (hre : Reachable st) :
    st.alloc_list.length ≤ st.cap ∧
    (∀ (avoid : Int) (i : Nat) (st2 : State),
      get_free_alloc_entry st avoid = some (i, st2) → st2.alloc_list.length < st.cap) :=
  ⟨(reachable_inv hre).2, fun _ _ _ hg => (get_free_spec hg).len_lt⟩

/-- C4 witness: the capacity bound instantiated at the fresh tracker. -/
theorem C4_table_capacity_witness :
    (initState 4 (fun _ => 0)).alloc_list.length ≤ (initState 4 (fun _ => 0)).cap ∧
    (∀ (avoid : Int) (i : Nat) (st2 : State),
      get_free_alloc_entry (initState 4 (fun _ => 0)) avoid = some (i, st2) →
        st2.alloc_list.length < (initState 4 (fun _ => 0)).cap) :=
  C4_table_capacity _ (Reachable.init 4 (fun _ => 0))

/-- C6: reallocate with size zero is exactly free: same resulting state
in every component, and the nil pointer is returned. -/
theorem C6_realloc_zero_is_free (st : State) (buffer : Nat) (file func : String)
    (line po qo : Nat) :
    keepalived_realloc st buffer 0 file func line po qo
      = (keepalived_free st buffer file func line po qo).map (fun s => (0, s)) := by
  unfold keepalived_realloc
  rw [if_pos rfl]

/-- C3 counterexample: freeing a matched pointer with a failing canary
marks the slot OVERRUN, not FREE_SLOT, refuting the claim that the slot
is marked Free. -/
theorem C3_counterexample :
    ((keepalived_free stC3 100 "a.c" "main" 13 0 0).map
      (fun s => (s.alloc_list.getD 0 emptySlot).type)) = some SlotType.OVERRUN ∧
    SlotType.OVERRUN ≠ SlotType.FREE_SLOT :=
  ⟨rfl, by decide⟩

/-- C3 amended: a matched free with a failing canary marks the slot
OVERRUN (not Free), raises the error indicator, still calls the
underlying free, decrements n and mem_allocated, and pushes a LAST_FREE
ring entry holding the slot index. -/
theorem C3_overrun_free (st : State) (buffer : Nat) (file func : String)
    (line po qo : Nat) (st' : State)
    (hb : buffer ≠ 0)
    (hfi : findAllocIdx st.alloc_list buffer < st.alloc_list.length)
    (hbad : canaryBad st buffer)
    (hflen : st.f < st.free_list.length)
    (hm : keepalived_free st buffer file func line po qo = some st') :
    (st'.alloc_list.getD (findAllocIdx st.alloc_list buffer) emptySlot).type
      = SlotType.OVERRUN ∧
    st'.memErrDetect = true ∧
    st'.freedPtrs = buffer :: st.freedPtrs ∧
    st'.n = st.n - 1 ∧
    st'.mem_allocated = sub64 st.mem_allocated (matchSlot st buffer).size ∧
    st'.free_list.getD st.f emptySlot =
      { type := SlotType.LAST_FREE, line := line, func := func, file := file,
        ptr := buffer, size := findAllocIdx st.alloc_list buffer } ∧
    st'.f = (st.f + 1) % FREE_LIST_SIZE := by
  obtain ⟨hal, herr, hfp, hn, hma, hfl, hf, _, _⟩ := common_free_found_bad hb hfi hbad hm
  refine ⟨?_, herr, hfp, hn, hma, ?_, hf⟩
  · rw [hal]
    rw [getD_of_getElem? (List.getElem?_set_eq_of_lt _ hfi) emptySlot]
  · rw [hfl]
    rw [getD_of_getElem? (List.getElem?_set_eq_of_lt _ hflen) emptySlot]

/-- C3 witness: the amended statement at the concrete corrupted state. -/
theorem C3_overrun_free_witness :
    ∃ st', keepalived_free stC3 100 "a.c" "main" 13 0 0 = some st' ∧
      (st'.alloc_list.getD (findAllocIdx stC3.alloc_list 100) emptySlot).type
        = SlotType.OVERRUN ∧
      st'.memErrDetect = true ∧ st'.freedPtrs = 100 :: stC3.freedPtrs ∧
      st'.n = stC3.n - 1 := by
  obtain ⟨st', h⟩ : ∃ st', keepalived_free stC3 100 "a.c" "main" 13 0 0 = some st' :=
    ⟨_, rfl⟩
  have hc := C3_overrun_free stC3 100 "a.c" "main" 13 0 0 st'
    (by decide) (by decide) (by unfold canaryBad matchSlot; decide)
    (by
      show (0 : Nat) < (List.replicate FREE_LIST_SIZE emptySlot).length
      rw [List.length_replicate]
      norm_num [FREE_LIST_SIZE]) h
  exact ⟨st', h, hc.1, hc.2.1, hc.2.2.1, hc.2.2.2.1⟩

/-- Heap effect of a matched realloc: whatever the canary check said,
the call returns the address given by the underlying realloc and writes
the fresh canary just past the new user region. -/
theorem common_realloc_found_heap {st : State} {buffer size : Nat} {file func : String}
    {line po qo r : Nat} {st' : State}
    (hb : buffer ≠ 0) (hsz : size ≠ 0)
    (hfi : findAllocIdx st.alloc_list buffer < st.alloc_list.length)
    (hm : keepalived_free_realloc_common st buffer size file func line po qo
      = some (r, st')) :
    r = qo ∧ readWord st'.heap (r + size) = add64 size CHECK_VAL := by
  unfold keepalived_free_realloc_common at hm
  rw [if_neg hb] at hm
  dsimp only at hm
  rw [if_neg (Nat.ne_of_lt hfi)] at hm
  by_cases hbad : readWord st.heap
      (buffer + (st.alloc_list.getD (findAllocIdx st.alloc_list buffer) emptySlot).size)
      ≠ add64 (st.alloc_list.getD (findAllocIdx st.alloc_list buffer) emptySlot).size
        CHECK_VAL
  · rw [if_pos hbad] at hm
    rw [if_neg hsz] at hm
    cases hg : get_free_alloc_entry st (-1) with
    | none =>
      rw [hg] at hm
      exact absurd hm (by simp)
    | some pr =>
      obtain ⟨j, st1⟩ := pr
      rw [hg] at hm
      simp only [if_neg hsz] at hm
      rw [Option.some.injEq, Prod.mk.injEq] at hm
      obtain ⟨hr, hst⟩ := hm
      subst hst
      refine ⟨hr.symm, ?_⟩
      subst hr
      exact readWord_writeWord _ _ _ (Nat.mod_lt _ (by norm_num [WORD]))
  · rw [if_neg hbad] at hm
    rw [if_neg hsz] at hm
    simp only [if_neg hsz] at hm
    rw [Option.some.injEq, Prod.mk.injEq] at hm
    obtain ⟨hr, hst⟩ := hm
    subst hst
    refine ⟨hr.symm, ?_⟩
    subst hr
    exact readWord_writeWord _ _ _ (Nat.mod_lt _ (by norm_num [WORD]))

/-- A matched realloc whose canary check fails: the error bit is raised
and a copy of the matched record marked OVERRUN is stored in a fresh
slot (the matched slot itself stays ALLOCATED and is updated in
place). -/
theorem common_realloc_found_bad {st : State} {buffer size : Nat} {file func : String}
    {line po qo r : Nat} {st' : State}
    (hb : buffer ≠ 0) (hsz : size ≠ 0)
    (hfi : findAllocIdx st.alloc_list buffer < st.alloc_list.length)
    (hbad : canaryBad st buffer)
    (hm : keepalived_free_realloc_common st buffer size file func line po qo
      = some (r, st')) :
    st'.memErrDetect = true ∧
    ∃ j : Nat, st'.alloc_list[j]? = some
      ({ type := SlotType.OVERRUN, line := (matchSlot st buffer).line,
         func := (matchSlot st buffer).func, file := (matchSlot st buffer).file,
         ptr := (matchSlot st buffer).ptr, size := (matchSlot st buffer).size }
        : MEMCHECK) := by
  unfold keepalived_free_realloc_common at hm
  rw [if_neg hb] at hm
  dsimp only at hm
  rw [if_neg (Nat.ne_of_lt hfi)] at hm
  rw [if_pos (by exact hbad)] at hm
  rw [if_neg hsz] at hm
  cases hg : get_free_alloc_entry st (-1) with
  | none =>
    rw [hg] at hm
    exact absurd hm (by simp)
  | some pr =>
    obtain ⟨j, st1⟩ := pr
    rw [hg] at hm
    simp only [if_neg hsz] at hm
    rw [Option.some.injEq, Prod.mk.injEq] at hm
    obtain ⟨hr, hst⟩ := hm
    subst hst
    have gs := get_free_spec hg
    have hj : j < st1.alloc_list.length := gs.i_lt
    have hfreej : (st1.alloc_list.getD j emptySlot).type = SlotType.FREE_SLOT := gs.sel_free
    have h1i : st1.alloc_list[findAllocIdx st.alloc_list buffer]?
        = some (st.alloc_list.getD (findAllocIdx st.alloc_list buffer) emptySlot) := by
      rw [get_free_getElem gs _ hfi]
      exact getElem?_of_getD hfi emptySlot
    have hji : j ≠ findAllocIdx st.alloc_list buffer := by
      intro hcon
      rw [hcon, getD_of_getElem? h1i emptySlot,
        (findAllocIdx_found st.alloc_list buffer hfi).1] at hfreej
      exact absurd hfreej (by decide)
    refine ⟨rfl, j, ?_⟩
    exact (List.getElem?_set_ne (Ne.symm hji)).trans
      (List.getElem?_set_eq_of_lt _ hj)

/-- C5: the canary written by an allocation sits at byte offset size from
the buffer start and holds size + CHECK_VAL (in unsigned long
arithmetic); a matched resize rewrites it the same way past the new
region; on a matched free the slot ends up OVERRUN exactly when the
stored trailer differs from the value recomputed from the recorded
size; and on a matched resize a differing trailer likewise records the
slot as OVERRUN (in a fresh copy) and raises the error indicator. -/
theorem C5_canary_discipline :
    (∀ (st : State) (size : Nat) (file func : String) (line p buf : Nat) (st' : State),
      keepalived_malloc st size file func line p = some (buf, st') →
      readWord st'.heap (buf + size) = add64 size CHECK_VAL) ∧
    (∀ (st : State) (buffer size : Nat) (file func : String) (line po qo r : Nat)
      (st' : State), buffer ≠ 0 → size ≠ 0 →
      findAllocIdx st.alloc_list buffer < st.alloc_list.length →
      keepalived_free_realloc_common st buffer size file func line po qo = some (r, st') →
      readWord st'.heap (r + size) = add64 size CHECK_VAL) ∧
    (∀ (st : State) (buffer : Nat) (file func : String) (line po qo : Nat) (st' : State),
      buffer ≠ 0 →
      findAllocIdx st.alloc_list buffer < st.alloc_list.length →
      keepalived_free st buffer file func line po qo = some st' →
      ((st'.alloc_list.getD (findAllocIdx st.alloc_list buffer) emptySlot).type
          = SlotType.OVERRUN ↔ canaryBad st buffer)) ∧
    (∀ (st : State) (buffer size : Nat) (file func : String) (line po qo r : Nat)
      (st' : State), buffer ≠ 0 → size ≠ 0 →
      findAllocIdx st.alloc_list buffer < st.alloc_list.length →
      canaryBad st buffer →
      keepalived_free_realloc_common st buffer size file func line po qo = some (r, st') →
      st'.memErrDetect = true ∧
      ∃ j : Nat, st'.alloc_list[j]? = some
        ({ type := SlotType.OVERRUN, line := (matchSlot st buffer).line,
           func := (matchSlot st buffer).func, file := (matchSlot st buffer).file,
           ptr := (matchSlot st buffer).ptr, size := (matchSlot st buffer).size }
          : MEMCHECK)) := by
  refine ⟨?_, ?_, ?_, ?_⟩
  · intro st size file func line p buf st' hm
    have ms := keepalived_malloc_spec hm
    rw [ms.heap_eq, ms.buf_eq]
    exact readWord_writeWord _ _ _ (Nat.mod_lt _ (by norm_num [WORD]))
  · intro st buffer size file func line po qo r st' hb hsz hfi hm
    exact (common_realloc_found_heap hb hsz hfi hm).2
  · intro st buffer file func line po qo st' hb hfi hm
    by_cases hbad : canaryBad st buffer
    · obtain ⟨hal, _⟩ := common_free_found_bad hb hfi hbad hm
      rw [hal, getD_of_getElem? (List.getElem?_set_eq_of_lt _ hfi) emptySlot]
      simp [hbad]
    · obtain ⟨hal, _⟩ := common_free_found_ok hb hfi hbad hm
      rw [hal, getD_of_getElem? (List.getElem?_set_eq_of_lt _ hfi) emptySlot]
      simp [hbad]
  · intro st buffer size file func line po qo r st' hb hsz hfi hbad hm
    exact common_realloc_found_bad hb hsz hfi hbad hm

/-- C5 witness: the four canary statements at concrete calls. -/
theorem C5_canary_discipline_witness :
    (∃ buf st', keepalived_malloc (initState 4 (fun _ => 0)) 3 "a.c" "m" 1 50
        = some (buf, st') ∧ readWord st'.heap (buf + 3) = add64 3 CHECK_VAL) ∧
    (∃ r st', keepalived_free_realloc_common stC3 100 5 "a.c" "m" 2 0 200
        = some (r, st') ∧ readWord st'.heap (r + 5) = add64 5 CHECK_VAL) ∧
    (∃ st', keepalived_free stC3 100 "a.c" "m" 3 0 0 = some st' ∧
      ((st'.alloc_list.getD (findAllocIdx stC3.alloc_list 100) emptySlot).type
          = SlotType.OVERRUN ↔ canaryBad stC3 100)) ∧
    (∃ r st', keepalived_free_realloc_common stC3 100 5 "a.c" "m" 4 0 200
        = some (r, st') ∧ st'.memErrDetect = true ∧
      ∃ j : Nat, st'.alloc_list[j]? = some
        ({ type := SlotType.OVERRUN, line := (matchSlot stC3 100).line,
           func := (matchSlot stC3 100).func, file := (matchSlot stC3 100).file,
           ptr := (matchSlot stC3 100).ptr, size := (matchSlot stC3 100).size }
          : MEMCHECK)) := by
  refine ⟨?_, ?_, ?_, ?_⟩
  · obtain ⟨buf, st', h⟩ : ∃ buf st',
        keepalived_malloc (initState 4 (fun _ => 0)) 3 "a.c" "m" 1 50 = some (buf, st') :=
      ⟨_, _, rfl⟩
    exact ⟨buf, st', h, C5_canary_discipline.1 _ _ _ _ _ _ _ _ h⟩
  · obtain ⟨r, st', h⟩ : ∃ r st',
        keepalived_free_realloc_common stC3 100 5 "a.c" "m" 2 0 200 = some (r, st') :=
      ⟨_, _, rfl⟩
    exact ⟨r, st', h, C5_canary_discipline.2.1 _ _ _ _ _ _ _ _ _ _
      (by decide) (by decide) (by decide) h⟩
  · obtain ⟨st', h⟩ : ∃ st', keepalived_free stC3 100 "a.c" "m" 3 0 0 = some st' :=
      ⟨_, rfl⟩
    exact ⟨st', h, C5_canary_discipline.2.2.1 _ _ _ _ _ _ _ _
      (by decide) (by decide) h⟩
  · obtain ⟨r, st', h⟩ : ∃ r st',
        keepalived_free_realloc_common stC3 100 5 "a.c" "m" 4 0 200 = some (r, st') :=
      ⟨_, _, rfl⟩
    exact ⟨r, st', h, C5_canary_discipline.2.2.2 _ _ _ _ _ _ _ _ _ _
      (by decide) (by decide) (by decide) (by unfold canaryBad matchSlot; decide) h⟩

/-- C7: a realloc of the nil pointer with nonzero size returns a fresh
non-nil allocation of that size and also records a REALLOC_NULL event
and raises the error indicator. -/
theorem C7_realloc_nil (st : State) (size : Nat) (file func : String) (line po qo r : Nat)
    (st' : State) (hsz : size ≠ 0)
    (hm : keepalived_realloc st 0 size file func line po qo = some (r, st')) :
    r ≠ 0 ∧ st'.memErrDetect = true ∧
    (∃ i1 : Nat, st'.alloc_list[i1]? = some
      ({ type := SlotType.REALLOC_NULL, line := line, func := func, file := file,
         ptr := 0, size := 0 } : MEMCHECK)) ∧
    (∃ i3 : Nat, st'.alloc_list[i3]? = some
      ({ type := SlotType.ALLOCATED, line := line, func := func, file := file,
         ptr := r, size := size } : MEMCHECK)) := by
  unfold keepalived_realloc at hm
  rw [if_neg hsz] at hm
  obtain ⟨hr, hpo, herr, h1, h3, _⟩ := common_realloc_null_spec hsz hm
  subst hr
  exact ⟨hpo, herr, h1, h3⟩

/-- C7 witness: realloc of nil with size 6 on the fresh tracker. -/
theorem C7_realloc_nil_witness :
    ∃ r st', keepalived_realloc (initState 4 (fun _ => 0)) 0 6 "c.c" "fn" 7 200 0
        = some (r, st') ∧ r ≠ 0 ∧ st'.memErrDetect = true := by
  obtain ⟨r, st', h⟩ : ∃ r st',
      keepalived_realloc (initState 4 (fun _ => 0)) 0 6 "c.c" "fn" 7 200 0
        = some (r, st') := ⟨_, _, rfl⟩
  have hc := C7_realloc_nil (initState 4 (fun _ => 0)) 6 "c.c" "fn" 7 200 0 r st'
    (by decide) h
  exact ⟨r, st', h, hc.1, hc.2.1⟩

/-- C8 amended: on an unmatched free or resize the ring is scanned from
the most recently written entry backward, stopping at the first entry
holding the pointer; when one is found the printed line carries its
stored row id and call site, and when none matches no forensic line is
emitted. -/
theorem C8_forensic_scan (fl : List MEMCHECK) (f buffer : Nat)
    (hring : ∀ e ∈ fl, e.type = SlotType.LAST_FREE ∨ e.ptr = 0) (hb : buffer ≠ 0) :
    forensicScan fl f buffer
      = (backIdxSeq (prevIdx f) FREE_LIST_SIZE).find?
          (fun j => (fl.getD j emptySlot).ptr == buffer) ∧
    (∀ j : Nat, forensicScan fl f buffer = some j →
      forensicResult fl f buffer = some
        { rowId := (fl.getD j emptySlot).size, file := (fl.getD j emptySlot).file,
          line := (fl.getD j emptySlot).line, func := (fl.getD j emptySlot).func }) ∧
    (forensicScan fl f buffer = none → forensicResult fl f buffer = none) := by
  refine ⟨scanAux_eq_find fl buffer hring hb FREE_LIST_SIZE (prevIdx f), ?_, ?_⟩
  · intro j hj
    unfold forensicResult
    rw [hj]
    rfl
  · intro hj
    unfold forensicResult
    rw [hj]
    rfl

/-- C8 witness: the scan characterization on the all-empty ring. -/
theorem C8_forensic_scan_witness :
    forensicScan (List.replicate FREE_LIST_SIZE emptySlot) 0 5
      = (backIdxSeq (prevIdx 0) FREE_LIST_SIZE).find?
          (fun j => ((List.replicate FREE_LIST_SIZE emptySlot).getD j emptySlot).ptr == 5) :=
  (C8_forensic_scan (List.replicate FREE_LIST_SIZE emptySlot) 0 5
    (by
      intro e he
      right
      rw [List.eq_of_mem_replicate he]
      rfl)
    (by decide)).1

set_option maxRecDepth 4000 in
/-- C8 counterexample: a free of an unknown pointer on the fresh tracker
finds nothing in the ring, and the forensic outcome recorded is none: no
line at all is emitted, not a no-prior-record report. -/
theorem C8_counterexample :
    (keepalived_free (initState 4 (fun _ => 0)) 77 "f.c" "fn" 5 0 0).map
      (fun s => s.forensicReports) = some [none] := by
  decide

/-- C9: every byte of the user-visible region of a fresh allocation is
zero when the pointer is returned. -/
theorem C9_zero_fill (st : State) (size : Nat) (file func : String) (line p buf off : Nat)
    (st' : State)
    (hm : keepalived_malloc st size file func line p = some (buf, st'))
    (hoff : off < size) :
    st'.heap (buf + off) = 0 := by
  have ms := keepalived_malloc_spec hm
  rw [ms.heap_eq]
  rw [show buf = p from ms.buf_eq]
  rw [writeWord_lt _ _ _ _ (by omega)]
  exact zeroRange_in st.heap p (size + TRAILER) (p + off) (by omega) (by omega)

/-- C9 witness: a concrete allocation over dirty memory. -/
theorem C9_zero_fill_witness :
    ∃ buf st', keepalived_malloc (initState 4 (fun _ => 9)) 3 "a.c" "m" 1 50
        = some (buf, st') ∧ st'.heap (buf + 1) = 0 := by
  obtain ⟨buf, st', h⟩ : ∃ buf st',
      keepalived_malloc (initState 4 (fun _ => 9)) 3 "a.c" "m" 1 50 = some (buf, st') :=
    ⟨_, _, rfl⟩
  exact ⟨buf, st', h, C9_zero_fill _ _ _ _ _ _ _ _ _ h (by decide)⟩

/-- C10: slot recycling only ever picks FREE_SLOT entries, and along any
run every slot that records a misuse event keeps its record unchanged,
so it is still present for the final dump. -/
theorem C10_error_slots_permanent (st st' : State)
    (hs : Relation.ReflTransGen Step st st') :
    (∀ (s : State) (avoid : Int) (i : Nat) (s2 : State),
      get_free_alloc_entry s avoid = some (i, s2) →
      (s2.alloc_list.getD i emptySlot).type = SlotType.FREE_SLOT) ∧
    (∀ (k : Nat) (e : MEMCHECK), st.alloc_list[k]? = some e → isErrState e.type = true →
      st'.alloc_list[k]? = some e) := by
  constructor
  · intro s avoid i s2 hg
    exact (get_free_spec hg).sel_free
  · induction hs with
    | refl =>
      intro k e hk he
      exact hk
    | tail h1 h2 ih =>
      intro k e hk he
      exact step_err_pres h2 k e (ih k e hk he) he

/-- C10 witness: the FREE_NULL record survives a further allocation. -/
theorem C10_error_slots_permanent_witness :
    ∃ st2, Relation.ReflTransGen Step stErr st2 ∧
      st2.alloc_list[0]? = some
        ({ type := SlotType.FREE_NULL, line := 3, func := "m", file := "a.c",
           ptr := 0, size := 0 } : MEMCHECK) := by
  obtain ⟨buf, st2, h2⟩ : ∃ buf s, keepalived_malloc stErr 3 "a.c" "m" 2 50
      = some (buf, s) := ⟨_, _, rfl⟩
  have hstep : Step stErr st2 := Step.malloc stErr 3 "a.c" "m" 2 50 buf st2 h2
  refine ⟨st2, Relation.ReflTransGen.single hstep, ?_⟩
  exact (C10_error_slots_permanent stErr st2 (Relation.ReflTransGen.single hstep)).2
    0 _ rfl (by decide)

